import Mathlib

/-!
# Verification of the Voice_Tory inventory core

A shallow embedding of the inventory command engine of the Voice_Tory
repository: the in-memory storage collections (`src/backend/db/models.py`,
class `InMemoryCollection`), the inventory ledger
(`InventoryDatabase.add_product` / `sell_product` / `delete_product` /
`get_inventory`), the user-account creation path
(`InventoryDatabase.create_user`), the command parser
(`src/utils/parser.py`, `parse_inventory_command`) and the bulk importer
(`src/backend/inventory_routes.py`, `process_excel_file`,
`normalize_product_name`).

Python integers are unbounded, so quantities are modelled as `Int`.
Strings are modelled over their character lists; the Python string
methods `lower`/`strip` and the regex character classes `\s`, `\d`,
`[^a-z0-9\s]` are modelled over the ASCII range, which covers every
character class constant appearing in the source patterns.
Wall-clock timestamps (`datetime.now()`) are modelled as an explicit
`now : Nat` argument threaded into the operations that store one.
-/

namespace VoiceTory

/-- A document of the `products` collection: the fields written by
`InventoryDatabase.add_product` (`models.py` lines 174-182): `name`,
`quantity`, `created_at`, and `user_id` when one was supplied.  The
in-memory `_id` counter value is not observable through any ledger
operation and is omitted. -/
structure Product where
  name : String
  quantity : Int
  created_at : Nat
  user_id : Option String
deriving Repr, DecidableEq

/-- A document of the `sales` collection, as written by
`InventoryDatabase.sell_product` (`models.py` lines 234-242). -/
structure Sale where
  name : String
  quantity : Int
  timestamp : Nat
  user_id : Option String
deriving Repr, DecidableEq

/-- The state of the product and sale collections.  `InMemoryCollection`
stores documents in a dict keyed by an increasing counter, so iteration
order is insertion order: both collections are modelled as lists in
insertion order, with `insert_one` appending at the back. -/
structure DBState where
  products : List Product
  sales : List Sale
deriving Repr, DecidableEq

def emptyDB : DBState := ⟨[], []⟩

/-- The query predicate used by every ledger operation: with a `user_id`
the query is `{"name": name, "user_id": user_id}` and
`InMemoryCollection` requires `doc.get("user_id") == user_id` (a document
without the field yields `None` and does not match); without one the
query is `{"name": name}` and matches a document of any owner. -/
def matchesProduct (name : String) (uid : Option String) (p : Product) : Bool :=
  p.name = name && (match uid with
    | none => true
    | some u => p.user_id = some u)

/-- `InMemoryCollection.find_one`: the first document (in insertion
order) matching the query, else `None`. -/
def products_find_one (name : String) (uid : Option String)
    (ps : List Product) : Option Product :=
  ps.find? (matchesProduct name uid)

/-- `InMemoryCollection.update_one` with `{"$inc": {"quantity": delta}}`:
adds `delta` to the `quantity` of the first matching document only. -/
def products_inc (name : String) (uid : Option String) (delta : Int) :
    List Product → List Product
  | [] => []
  | p :: ps =>
    if matchesProduct name uid p then { p with quantity := p.quantity + delta } :: ps
    else p :: products_inc name uid delta ps

/-- `InMemoryCollection.delete_one`: removes the first matching
document. -/
def products_delete_one (name : String) (uid : Option String) :
    List Product → List Product
  | [] => []
  | p :: ps =>
    if matchesProduct name uid p then ps
    else p :: products_delete_one name uid ps

/-- The result dictionaries returned by the ledger methods: either
`{"success": True, "action": ..., "product": ..., "quantity": ...}` or
`{"success": False, "error": msg}`. -/
inductive OpResult where
  | ok (action : String) (product : String) (quantity : Int)
  | err (msg : String)
deriving Repr, DecidableEq

def OpResult.isOk : OpResult → Bool
  | .ok _ _ _ => true
  | .err _ => false

/-- `InventoryDatabase.add_product` (`models.py` lines 148-196): look the
product up by `(name, user_id)`; if found, `$inc` its quantity by
`quantity` (any integer — the method performs no validation of the
argument); otherwise insert a new document with `created_at = now`.
Always reports success on the in-memory backend. -/
def add_product (name : String) (quantity : Int) (uid : Option String)
    (now : Nat) (st : DBState) : OpResult × DBState :=
  match products_find_one name uid st.products with
  | some _ =>
    (.ok "updated" name quantity,
      { st with products := products_inc name uid quantity st.products })
  | none =>
    (.ok "added" name quantity,
      { st with products := st.products ++ [⟨name, quantity, now, uid⟩] })

/-- `InventoryDatabase.sell_product` (`models.py` lines 198-255): fails
with `"Product not found"` when the lookup misses; fails with
`"Insufficient stock. Available: {q}"` when the stored quantity is
strictly below the request; otherwise `$inc`s the quantity by
`-quantity` and appends one document to the `sales` collection.  No
document is ever removed here, even at quantity zero. -/
def sell_product (name : String) (quantity : Int) (uid : Option String)
    (now : Nat) (st : DBState) : OpResult × DBState :=
  match products_find_one name uid st.products with
  | none => (.err "Product not found", st)
  | some item =>
    if item.quantity < quantity then
      (.err ("Insufficient stock. Available: " ++ toString item.quantity), st)
    else
      (.ok "sold" name quantity,
        { products := products_inc name uid (-quantity) st.products,
          sales := st.sales ++ [⟨name, quantity, now, uid⟩] })

/-- `InventoryDatabase.delete_product` (`models.py` lines 257-313): same
lookup and stock check as `sell_product` (message
`"Insufficient quantity. Available: {q}"`), then `$inc`s by `-quantity`,
re-reads the document and removes it when the new quantity is exactly 0.
No sale document is appended. -/
def delete_product (name : String) (quantity : Int) (uid : Option String)
    (st : DBState) : OpResult × DBState :=
  match products_find_one name uid st.products with
  | none => (.err "Product not found", st)
  | some item =>
    if item.quantity < quantity then
      (.err ("Insufficient quantity. Available: " ++ toString item.quantity), st)
    else
      let ps := products_inc name uid (-quantity) st.products
      let ps' :=
        match products_find_one name uid ps with
        | some updated => if updated.quantity = 0 then products_delete_one name uid ps else ps
        | none => ps
      (.ok "deleted" name quantity, { st with products := ps' })

/-- `InventoryDatabase.get_inventory` (`models.py` lines 315-335): with a
`user_id` it queries `{"user_id": uid}`, otherwise it returns every
product document. -/
def get_inventory (uid : Option String) (st : DBState) : List Product :=
  match uid with
  | none => st.products
  | some u => st.products.filter (fun p => p.user_id = some u)

/-- A ledger mutation issued through the public operations of
`InventoryDatabase`, with the quantity argument an arbitrary integer just
as Python passes it. -/
inductive Op where
  | add (name : String) (qty : Int)
  | sell (name : String) (qty : Int)
  | del (name : String) (qty : Int)
deriving Repr, DecidableEq

/-- Execute one ledger operation for owner `uid`, discarding the result
dictionary. -/
def applyOp (uid : Option String) (now : Nat) (st : DBState) : Op → DBState
  | .add n q => (add_product n q uid now st).2
  | .sell n q => (sell_product n q uid now st).2
  | .del n q => (delete_product n q uid st).2

/-- Execute a sequence of ledger operations left to right. -/
def runOps (uid : Option String) (now : Nat) : List Op → DBState → DBState
  | [], st => st
  | op :: ops, st => runOps uid now ops (applyOp uid now st op)

/-- The spec's ledger invariant, as an executable check: every stored
product quantity is non-negative. -/
def nonnegB (st : DBState) : Bool :=
  st.products.all (fun p => 0 ≤ p.quantity)

/-! ## Two-phase decomposition of `sell_product`

`sell_product` is a read-then-write sequence with no lock and no
conditional update: the `find_one` at `models.py` lines 204-207 takes a
snapshot, the stock check at line 215 runs against that snapshot, and the
`$inc` at lines 222-231 runs against whatever the collection holds at
write time.  To reason about two concurrent calls the method is split
into exactly those phases; `sell_product_phases` proves the split is the
method itself. -/

/-- Read phase of `sell_product`: the `find_one` snapshot. -/
def sell_read (name : String) (uid : Option String) (st : DBState) :
    Option Product :=
  products_find_one name uid st.products

/-- Check-and-write phase of `sell_product`: the stock check runs against
the snapshot `item`, the `$inc` and sale insert against the current
state. -/
def sell_commit (name : String) (q : Int) (uid : Option String) (now : Nat)
    (item : Product) (st : DBState) : OpResult × DBState :=
  if item.quantity < q then
    (.err ("Insufficient stock. Available: " ++ toString item.quantity), st)
  else
    (.ok "sold" name q,
      { products := products_inc name uid (-q) st.products,
        sales := st.sales ++ [⟨name, q, now, uid⟩] })

/-! ## The command parser (`src/utils/parser.py`)

`parse_inventory_command` lower-cases and strips the input, then tries
`re.match` with the anchored patterns `add\s+(\d+)\s+(.+)`,
`sold\s+(\d+)\s+(.+)`, `delete\s+(\d+)\s+(.+)` in that (dict-insertion)
order.  Characters are modelled over ASCII: `\s` is the ASCII whitespace
class, `\d` the ASCII digits, `.` any character except a newline, which
covers every input of interest; `str.lower`/`str.strip` are modelled on
the same range. -/

/-- Python `\s` over ASCII: space, tab, newline, carriage return,
vertical tab, form feed. -/
def pyIsSpace (c : Char) : Bool :=
  c.toNat = 32 || c.toNat = 9 || c.toNat = 10 || c.toNat = 13 ||
  c.toNat = 11 || c.toNat = 12

/-- Python `\d` over ASCII. -/
def pyIsDigit (c : Char) : Bool :=
  48 ≤ c.toNat && c.toNat ≤ 57

/-- `str.lower` on one ASCII character. -/
def pyLowerChar (c : Char) : Char :=
  if 65 ≤ c.toNat && c.toNat ≤ 90 then Char.ofNat (c.toNat + 32) else c

/-- `str.lower` over ASCII. -/
def pyLower (s : List Char) : List Char := s.map pyLowerChar

/-- `str.strip()`: drop leading and trailing whitespace. -/
def pyStrip (s : List Char) : List Char :=
  ((s.dropWhile pyIsSpace).reverse.dropWhile pyIsSpace).reverse

/-- Does `l` start with `v`? (the literal-verb part of `re.match`). -/
def beginsWith : List Char → List Char → Bool
  | [], _ => true
  | _ :: _, [] => false
  | v :: vs, c :: cs => v = c && beginsWith vs cs

/-- `re.match(verb + r"\s+(\d+)\s+(.+)", text)`, returning
`(group(1), group(2))` on a match.  Greedy matching with disjoint
character classes reduces to maximal runs: after the literal verb the
engine takes a maximal (non-empty) whitespace run, a maximal (non-empty)
digit run, a maximal (non-empty) whitespace run, and `(.+)` then takes
everything up to the next newline.  The function is only applied to
stripped text (the parser strips first), which cannot end in whitespace,
so the backtracking case in which `(.+)` would consume trailing
whitespace cannot arise and maximal runs coincide with `re.match`. -/
def matchCmdPattern (verb : List Char) (text : List Char) :
    Option (List Char × List Char) :=
  if beginsWith verb text then
    let t1 := text.drop verb.length
    let w1 := t1.takeWhile pyIsSpace
    if w1.isEmpty then none else
    let t2 := t1.drop w1.length
    let ds := t2.takeWhile pyIsDigit
    if ds.isEmpty then none else
    let t3 := t2.drop ds.length
    let w2 := t3.takeWhile pyIsSpace
    if w2.isEmpty then none else
    let rest := (t3.drop w2.length).takeWhile (fun c => c ≠ '\n')
    if rest.isEmpty then none else some (ds, rest)
  else none

/-- `int()` of a non-empty ASCII digit run. -/
def digitsToNat (ds : List Char) : Nat :=
  ds.foldl (fun n c => 10 * n + (c.toNat - 48)) 0

/-- The dictionaries returned by `parse_inventory_command`: either
`{"action", "quantity", "product"}` or `{"error": msg}`. -/
inductive ParseResult where
  | cmd (action : String) (quantity : Nat) (product : String)
  | perr (msg : String)
deriving Repr, DecidableEq

/-- Lines 32-46 of `parser.py`: convert `group(1)` with `int`, reject a
non-positive quantity, and strip `group(2)` as the product. -/
def finishCmd (action : String) (ds rest : List Char) : ParseResult :=
  let q := digitsToNat ds
  if q = 0 then .perr "Quantity must be greater than 0"
  else .cmd action q (String.mk (pyStrip rest))

/-- `parse_inventory_command` (`parser.py` lines 3-49): lower-case and
strip, then try the three anchored patterns in dict order `add`, `sell`
(verb `"sold"`), `delete`, handing the first match to `finishCmd`. -/
def parse_inventory_command (text : String) : ParseResult :=
  let t := pyStrip (pyLower text.toList)
  match matchCmdPattern "add".toList t with
  | some (ds, rest) => finishCmd "add" ds rest
  | none =>
    match matchCmdPattern "sold".toList t with
    | some (ds, rest) => finishCmd "sell" ds rest
    | none =>
      match matchCmdPattern "delete".toList t with
      | some (ds, rest) => finishCmd "delete" ds rest
      | none =>
        .perr "Invalid command format. Use: 'Add X [product]', 'Sold X [product]', or 'Delete X [product]'"

/-! ## The name normalizer (`inventory_routes.py` lines 602-634) -/

/-- `str.endswith` on character lists. -/
def endsWith (suffix : List Char) (l : List Char) : Bool :=
  beginsWith suffix.reverse l.reverse

/-- The plural-stripping loop of `normalize_product_name`: the endings
are tried in the source's list order `['s', 'es', 'ies', 'ves']` with a
`break` after the first hit, so a word ending in `ies`/`ves` (which also
ends in `s`) always takes the bare-`s` branch. -/
def stripPluralSuffix (l : List Char) : List Char :=
  if endsWith ['s'] l then l.take (l.length - 1)
  else if endsWith ['e', 's'] l then l.take (l.length - 2)
  else if endsWith ['i', 'e', 's'] l then l.take (l.length - 3) ++ ['y']
  else if endsWith ['v', 'e', 's'] l then l.take (l.length - 3) ++ ['f']
  else l

/-- The character class kept by `re.sub(r'[^a-z0-9\s]', '', ·)`. -/
def keepNormChar (c : Char) : Bool :=
  (97 ≤ c.toNat && c.toNat ≤ 122) || (48 ≤ c.toNat && c.toNat ≤ 57) ||
  pyIsSpace c

/-- `re.sub(r'\s+', ' ', ·)` with a previous-was-whitespace flag: the
first character of each maximal whitespace run emits one space and the
rest of the run is suppressed. -/
def squeezeAux : Bool → List Char → List Char
  | _, [] => []
  | prevSpace, c :: cs =>
    if pyIsSpace c then
      if prevSpace then squeezeAux true cs else ' ' :: squeezeAux true cs
    else c :: squeezeAux false cs

/-- `re.sub(r'\s+', ' ', ·)`: replace each maximal whitespace run by one
space. -/
def squeezeSpaces (l : List Char) : List Char := squeezeAux false l

/-- `normalize_product_name` (`inventory_routes.py` lines 602-634):
lower-case and strip, strip one plural ending (list order `s`, `es`,
`ies`, `ves`, first hit wins), drop characters outside `[a-z0-9\s]`,
collapse whitespace runs and strip again. -/
def normalize_product_name (name : String) : String :=
  let n0 := pyStrip (pyLower name.toList)
  let n1 := stripPluralSuffix n0
  let n2 := n1.filter keepNormChar
  String.mk (pyStrip (squeezeSpaces n2))

/-! ## The users collection and `create_user` (`models.py` lines 338-394)

The in-memory backend stores user dicts; `create_user` checks duplicates
with `find_one({"$or": [{"username": u}, {"email": e}]})`.
`InMemoryCollection.find_one` compares `doc.get(key) == value` for every
query key — it implements no MongoDB operators, so `"$or"` is looked up
as a literal document key.  The random salt (`secrets.token_hex`) and
the hash (`hashlib.sha256(...).hexdigest()`) are modelled as parameters:
a caller-supplied salt string and hash function. -/

/-- A user document, with the fields written by `create_user` and the
`_id` assigned by the in-memory `insert_one` counter. -/
structure UserDoc where
  id : Nat
  username : String
  email : String
  password_hash : String
  salt : String
  full_name : String
  created_at : Nat
  is_active : Bool
  role : String
deriving Repr, DecidableEq

/-- The query values occurring against the users collection in the
source: plain strings, and the `$or` list of single-string-field clauses
built by `create_user`/`authenticate_user`. -/
inductive QVal where
  | vstr (s : String)
  | orClauses (cs : List (String × String))
deriving Repr, DecidableEq

/-- `doc.get(key)` on a user document, for the string-valued fields any
source query looks up.  A key the document does not carry — `"$or"`
included — yields `None`. -/
def UserDoc.get (k : String) (u : UserDoc) : Option QVal :=
  if k = "username" then some (.vstr u.username)
  else if k = "email" then some (.vstr u.email)
  else if k = "password_hash" then some (.vstr u.password_hash)
  else if k = "salt" then some (.vstr u.salt)
  else if k = "full_name" then some (.vstr u.full_name)
  else if k = "role" then some (.vstr u.role)
  else none

/-- `InMemoryCollection.find_one` on the users collection: the first
document (insertion order) for which every query key/value pair
satisfies `doc.get(key) == value`. -/
def users_find_one (query : List (String × QVal)) (us : List UserDoc) :
    Option UserDoc :=
  us.find? (fun u => query.all (fun kv => u.get kv.1 = some kv.2))

/-- State of the users collection: documents in insertion order plus the
in-memory `_id` counter. -/
structure UsersState where
  users : List UserDoc
  counter : Nat
deriving Repr, DecidableEq

/-- Result dictionaries of `create_user`. -/
inductive UserResult where
  | created (user_id : Nat) (username email : String)
  | uerr (msg : String)
deriving Repr, DecidableEq

/-- `re.match(r"^[^@]+@[^@]+\.[^@]+$", email)` over ASCII: one or more
non-`@`, one `@`, then a `@`-free tail containing a `.` with at least
one character before and after it.  (Python's `$` would also accept one
trailing newline; the inputs of interest carry none.) -/
def emailFormatOk (s : List Char) : Bool :=
  let a := s.takeWhile (fun c => c ≠ '@')
  let r := s.drop a.length
  match r with
  | [] => false
  | _ :: t =>
    !a.isEmpty && t.all (fun c => c ≠ '@') &&
    ((List.range t.length).any (fun i =>
      decide (t.get? i = some '.') && decide (1 ≤ i) &&
      decide (i + 1 < t.length)))

/-- `InventoryDatabase.create_user` (`models.py` lines 338-394): reject
empty fields, validate the email shape, look for a duplicate via the
`$or` query, then hash `password + salt` and insert the document with
`role="user"`, `is_active=True` and `full_name or username`. -/
def create_user (hashFn : String → String) (salt : String) (now : Nat)
    (username email password : String) (full_name : Option String)
    (st : UsersState) : UserResult × UsersState :=
  if username = "" || email = "" || password = "" then
    (.uerr "Username, email, and password are required", st)
  else if !(emailFormatOk email.toList) then
    (.uerr "Invalid email format", st)
  else
    match users_find_one
        [("$or", .orClauses [("username", username), ("email", email)])]
        st.users with
    | some _ => (.uerr "Username or email already exists", st)
    | none =>
      let uid := st.counter + 1
      let fn := match full_name with
        | some f => if f = "" then username else f
        | none => username
      let doc : UserDoc :=
        ⟨uid, username, email, hashFn (password ++ salt), salt, fn, now,
          true, "user"⟩
      (.created uid username email,
        { users := st.users ++ [doc], counter := uid })

/-! ## The bulk importer (`inventory_routes.py` lines 393-600)

Rows are modelled with the four required fields present (the structural
column check of lines 427-435 has passed) and the two derivable fields
optional; the `getD` defaults are the formulas of lines 499-508 (the
same formulas the DataFrame-level derivation of lines 437-442 uses).
Financial cells are Python floats in the source; the rows under
verification carry values whose comparisons are exact, and the importer
only compares and multiplies them, so they are modelled as integers.

`process_excel_file` calls `db.add_product(name, quantity,
cost_price=…, selling_price=…, total_value=…, profit=…, user_id=…)`
(lines 534-541 and 549-556), but
`InventoryDatabase.add_product(self, name, quantity, user_id=None)`
accepts no such keywords: Python keyword binding raises `TypeError`
before the method body runs.  The row's `except` handler (lines
563-567) then evaluates `f"Row data type: {type(row)}"` where the name
`row` is bound nowhere in the function (the loop variable is
`row_dict`), so the handler itself raises `NameError`, which escapes the
row loop to the function-level handler of lines 596-600. -/

structure XlsRow where
  name : String
  quantity : Int
  cost_price : Int
  selling_price : Int
  total_value : Option Int
  profit : Option Int
deriving Repr, DecidableEq

/-- Keywords supplied at the importer's `add_product` call sites. -/
def add_product_call_kwargs : List String :=
  ["cost_price", "selling_price", "total_value", "profit", "user_id"]

/-- Parameters of `InventoryDatabase.add_product` bindable by keyword. -/
def add_product_accepted_params : List String := ["name", "quantity", "user_id"]

/-- Outcome of binding the importer's call against `add_product`'s
signature: `TypeError` on the first unexpected keyword, in call order. -/
inductive CallOutcome where
  | typeErrorUnexpectedKwarg (kwarg : String)
  | bound
deriving Repr, DecidableEq

/-- Python call binding for the importer's `add_product` calls. -/
def call_add_product_with_financials : CallOutcome :=
  match add_product_call_kwargs.find?
      (fun k => !(add_product_accepted_params.contains k)) with
  | some k => .typeErrorUnexpectedKwarg k
  | none => .bound

/-- The importer's per-call accumulator: counters, error list, and the
in-memory snapshot set of existing names. -/
structure ImportAcc where
  imported : Nat
  updated : Nat
  duplicates : Nat
  errors : List String
  existing : List String
deriving Repr, DecidableEq

/-- One iteration of the row loop (lines 473-567).  `.error` models an
exception escaping the loop: when a row reaches the `add_product` call,
the `TypeError` enters the row's handler, whose own `NameError`
(`name 'row' is not defined`) propagates out. -/
def processRow (index : Nat) (row : XlsRow) (acc : ImportAcc) :
    Except String ImportAcc :=
  let quantity := row.quantity
  let cost_price := row.cost_price
  let selling_price := row.selling_price
  let total_value := row.total_value.getD (quantity * selling_price)
  let profit := row.profit.getD ((selling_price - cost_price) * quantity)
  if row.name = "" || quantity ≤ 0 then
    .ok { acc with errors := acc.errors ++
      ["Row " ++ toString (index + 2) ++ ": Invalid name or quantity"] }
  else if cost_price < 0 || selling_price < 0 || total_value < 0 || profit < 0 then
    .ok { acc with errors := acc.errors ++
      ["Row " ++ toString (index + 2) ++ ": Financial values cannot be negative"] }
  else if selling_price ≤ cost_price then
    .ok { acc with errors := acc.errors ++
      ["Row " ++ toString (index + 2) ++ ": Selling price should be greater than cost price"] }
  else
    match call_add_product_with_financials with
    | .typeErrorUnexpectedKwarg _ => .error "name 'row' is not defined"
    | .bound =>
      if acc.existing.contains (normalize_product_name row.name) then
        .ok { acc with updated := acc.updated + 1 }
      else
        .ok { acc with
          imported := acc.imported + 1
          existing := acc.existing ++ [normalize_product_name row.name] }

/-- The row loop over `enumerate(records)`. -/
def processRows : Nat → List XlsRow → ImportAcc → Except String ImportAcc
  | _, [], acc => .ok acc
  | i, r :: rs, acc =>
    match processRow i r acc with
    | .ok acc2 => processRows (i + 1) rs acc2
    | .error e => .error e

/-- `", ".join(message_parts)`. -/
def joinComma : List String → String
  | [] => ""
  | [s] => s
  | s :: rest => s ++ ", " ++ joinComma rest

/-- The result-message assembly of lines 569-580. -/
def importMessage (acc : ImportAcc) : String :=
  joinComma
    ((if 0 < acc.imported then
        ["Imported " ++ toString acc.imported ++ " new products"] else []) ++
     (if 0 < acc.updated then
        ["Updated " ++ toString acc.updated ++ " existing products"] else []) ++
     (if 0 < acc.duplicates then
        ["Found " ++ toString acc.duplicates ++ " duplicates"] else []) ++
     (if acc.errors.isEmpty then [] else
        ["Encountered " ++ toString acc.errors.length ++ " errors"]))

/-- The dictionary `process_excel_file` returns: the success branch of
lines 582-589 with counters and the error list, or the function-level
exception branch of lines 596-600 carrying only a message. -/
inductive ImportOutcome where
  | report (message : String) (imported updated duplicates : Nat)
      (errors : List String)
  | failure (message : String)
deriving Repr, DecidableEq

/-- The importer's row-processing pass, starting from the snapshot set
`existing0` (the source builds it from `item['name'].lower().strip()`
over the pre-import inventory — empty when the inventory read fails or
the inventory is empty). -/
def process_excel_rows (existing0 : List String) (rows : List XlsRow) :
    ImportOutcome :=
  match processRows 0 rows ⟨0, 0, 0, [], existing0⟩ with
  | .ok acc =>
    .report (importMessage acc) acc.imported acc.updated acc.duplicates acc.errors
  | .error e => .failure ("Error processing Excel file: " ++ e)

/-! ## Helper lemmas about the collection primitives -/

theorem matchesProduct_set_quantity (name : String) (uid : Option String)
    (p : Product) (q : Int) :
    matchesProduct name uid { p with quantity := q } = matchesProduct name uid p := rfl

theorem matchesProduct_self (name : String) (uid : Option String) (q : Int) (now : Nat) :
    matchesProduct name uid ⟨name, q, now, uid⟩ = true := by
  cases uid <;> simp [matchesProduct]

/-- Every member of the list after a `$inc` update is either an untouched
member of the original list or the first query match with its quantity
shifted by `delta`. -/
theorem mem_products_inc {name : String} {uid : Option String} {d : Int}
    {ps : List Product} {p' : Product} (h : p' ∈ products_inc name uid d ps) :
    p' ∈ ps ∨ ∃ p, products_find_one name uid ps = some p ∧
      p' = { p with quantity := p.quantity + d } := by
  induction ps with
  | nil => simp [products_inc] at h
  | cons p ps ih =>
    by_cases hm : matchesProduct name uid p = true
    · simp only [products_inc, if_pos hm, List.mem_cons] at h
      rcases h with h | h
      · exact Or.inr ⟨p, by simp [products_find_one, List.find?_cons_of_pos _ hm], h⟩
      · exact Or.inl (List.mem_cons_of_mem _ h)
    · simp only [products_inc, if_neg hm, List.mem_cons] at h
      rcases h with h | h
      · exact Or.inl (by simp [h])
      · rcases ih h with h' | ⟨r, hr, hr'⟩
        · exact Or.inl (List.mem_cons_of_mem _ h')
        · refine Or.inr ⟨r, ?_, hr'⟩
          simpa [products_find_one, List.find?_cons_of_neg _ hm] using hr

/-- After a `$inc` on the first query match, `find_one` returns that same
document with the shifted quantity. -/
theorem products_find_one_inc {name : String} {uid : Option String}
    {ps : List Product} {p : Product}
    (h : products_find_one name uid ps = some p) (d : Int) :
    products_find_one name uid (products_inc name uid d ps) =
      some { p with quantity := p.quantity + d } := by
  induction ps with
  | nil => simp [products_find_one] at h
  | cons a ps ih =>
    by_cases hm : matchesProduct name uid a = true
    · have ha : a = p := by
        simpa [products_find_one, List.find?_cons_of_pos _ hm] using h
      subst ha
      simp only [products_inc, if_pos hm]
      exact List.find?_cons_of_pos _ (by rw [matchesProduct_set_quantity]; exact hm)
    · have h' : products_find_one name uid ps = some p := by
        simpa [products_find_one, List.find?_cons_of_neg _ hm] using h
      simp only [products_inc, if_neg hm, products_find_one]
      rw [List.find?_cons_of_neg _ hm]
      exact ih h'

/-- When no document matches, `insert_one` appends and the new document
becomes the unique query match. -/
theorem products_find_one_append {name : String} {uid : Option String}
    {ps : List Product} (h : products_find_one name uid ps = none)
    {p : Product} (hm : matchesProduct name uid p = true) :
    products_find_one name uid (ps ++ [p]) = some p := by
  induction ps with
  | nil => simp [products_find_one, List.find?_cons_of_pos _ hm]
  | cons a ps ih =>
    by_cases hma : matchesProduct name uid a = true
    · simp [products_find_one, List.find?_cons_of_pos _ hma] at h
    · have h' : products_find_one name uid ps = none := by
        simpa [products_find_one, List.find?_cons_of_neg _ hma] using h
      simp only [products_find_one, List.cons_append]
      rw [List.find?_cons_of_neg _ hma]
      exact ih h'

theorem mem_products_delete_one {name : String} {uid : Option String}
    {ps : List Product} {p' : Product}
    (h : p' ∈ products_delete_one name uid ps) : p' ∈ ps := by
  induction ps with
  | nil => simp [products_delete_one] at h
  | cons a ps ih =>
    by_cases hm : matchesProduct name uid a = true
    · simp only [products_delete_one, if_pos hm] at h
      exact List.mem_cons_of_mem _ h
    · simp only [products_delete_one, if_neg hm, List.mem_cons] at h
      rcases h with h | h
      · subst h
        exact List.mem_cons_self _ _
      · exact List.mem_cons_of_mem _ (ih h)

/-- A `$inc` update does not change which documents match the query. -/
theorem countP_products_inc (name : String) (uid : Option String) (d : Int)
    (ps : List Product) :
    (products_inc name uid d ps).countP (matchesProduct name uid) =
      ps.countP (matchesProduct name uid) := by
  induction ps with
  | nil => rfl
  | cons a ps ih =>
    by_cases hm : matchesProduct name uid a = true
    · simp [products_inc, if_pos hm, List.countP_cons, hm,
        matchesProduct_set_quantity]
    · simp [products_inc, if_neg hm, List.countP_cons, hm, ih]

/-- When the query matches at most one document, `delete_one` leaves no
match behind. -/
theorem products_find_one_delete_one {name : String} {uid : Option String}
    {ps : List Product}
    (h : ps.countP (matchesProduct name uid) ≤ 1) :
    products_find_one name uid (products_delete_one name uid ps) = none := by
  induction ps with
  | nil => rfl
  | cons a ps ih =>
    by_cases hm : matchesProduct name uid a = true
    · have h0 : ps.countP (matchesProduct name uid) = 0 := by
        rw [List.countP_cons, if_pos hm] at h
        omega
      simp only [products_delete_one, if_pos hm, products_find_one]
      rw [List.find?_eq_none]
      intro x hx
      exact (List.countP_eq_zero.1 h0) x hx
    · have h' : ps.countP (matchesProduct name uid) ≤ 1 := by
        rw [List.countP_cons, if_neg hm] at h
        omega
      simp only [products_delete_one, if_neg hm, products_find_one]
      rw [List.find?_cons_of_neg _ hm]
      exact ih h'

theorem mem_get_inventory {uid : Option String} {st : DBState} {p : Product}
    (h : p ∈ get_inventory uid st) : p ∈ st.products := by
  cases uid with
  | none => exact h
  | some u => exact List.mem_of_mem_filter h

theorem nonnegB_iff {st : DBState} :
    nonnegB st = true ↔ ∀ p ∈ st.products, 0 ≤ p.quantity := by
  simp [nonnegB, List.all_eq_true]

/-- One public ledger operation preserves non-negativity of every stored
quantity, provided an `add` only ever carries a non-negative quantity
argument (`sell`/`delete` are guarded by the stock check). -/
theorem applyOp_nonneg {uid : Option String} {now : Nat} {st : DBState} {op : Op}
    (hst : ∀ p ∈ st.products, 0 ≤ p.quantity)
    (hop : ∀ n q, op = Op.add n q → 0 ≤ q) :
    ∀ p ∈ (applyOp uid now st op).products, 0 ≤ p.quantity := by
  cases op with
  | add n q =>
    have hq : 0 ≤ q := hop n q rfl
    simp only [applyOp, add_product]
    cases hfind : products_find_one n uid st.products with
    | none =>
      simp only
      intro p hp
      rcases List.mem_append.1 hp with h | h
      · exact hst p h
      · simp at h
        subst h
        simpa using hq
    | some item =>
      simp only
      intro p hp
      rcases mem_products_inc hp with h | ⟨r, hr, hr'⟩
      · exact hst p h
      · have hrm : r ∈ st.products := List.mem_of_find?_eq_some hr
        have h0 : 0 ≤ r.quantity := hst r hrm
        subst hr'
        simp only
        omega
  | sell n q =>
    simp only [applyOp, sell_product]
    cases hfind : products_find_one n uid st.products with
    | none => exact hst
    | some item =>
      by_cases hlt : item.quantity < q
      · simp only [if_pos hlt]
        exact hst
      · simp only [if_neg hlt]
        intro p hp
        rcases mem_products_inc hp with h | ⟨r, hr, hr'⟩
        · exact hst p h
        · rw [hfind] at hr
          injection hr with hr
          subst hr
          subst hr'
          simp only
          omega
  | del n q =>
    simp only [applyOp, delete_product]
    cases hfind : products_find_one n uid st.products with
    | none => exact hst
    | some item =>
      by_cases hlt : item.quantity < q
      · simp only [if_pos hlt]
        exact hst
      · simp only [if_neg hlt]
        have hinc : ∀ p ∈ products_inc n uid (-q) st.products, 0 ≤ p.quantity := by
          intro p hp
          rcases mem_products_inc hp with h | ⟨r, hr, hr'⟩
          · exact hst p h
          · rw [hfind] at hr
            injection hr with hr
            subst hr
            subst hr'
            simp only
            omega
        cases hre : products_find_one n uid (products_inc n uid (-q) st.products) with
        | none => exact hinc
        | some updated =>
          by_cases hz : updated.quantity = 0
          · simp only [if_pos hz]
            intro p hp
            exact hinc p (mem_products_delete_one hp)
          · simp only [if_neg hz]
            exact hinc

/-- Non-negativity is preserved along any sequence of public ledger
operations whose `add`s all carry non-negative quantities. -/
theorem runOps_nonneg (uid : Option String) (now : Nat) (ops : List Op)
    (st : DBState) (hadd : ∀ n q, Op.add n q ∈ ops → 0 ≤ q)
    (hst : nonnegB st = true) : nonnegB (runOps uid now ops st) = true := by
  induction ops generalizing st with
  | nil => simpa [runOps] using hst
  | cons op ops ih =>
    simp only [runOps]
    apply ih
    · intro n q h
      exact hadd n q (List.mem_cons_of_mem _ h)
    · rw [nonnegB_iff]
      exact applyOp_nonneg (nonnegB_iff.1 hst)
        (fun n q he => hadd n q (he ▸ List.mem_cons_self _ _))

/-! ## Claim C1 -/

/-- C1, as stated, is false on the code: `add_product` accepts any
integer quantity, so a single `add("milk", -1)` issued through the
public ledger operations drives a stored quantity below zero. -/
theorem C1_counterexample :
    nonnegB (runOps none 0 [Op.add "milk" (-1)] emptyDB) = false := by decide

/-- C1 (amended): for every sequence of add/sell/delete operations whose
`add` quantities are all non-negative, executed sequentially through the
ledger's public operations from a state satisfying the invariant, every
stored product quantity stays `≥ 0` at all times. -/
theorem C1_quantity_nonneg (uid : Option String) (now : Nat) (ops : List Op)
    (st : DBState) (hadd : ∀ n q, Op.add n q ∈ ops → 0 ≤ q)
    (hst : nonnegB st = true) : nonnegB (runOps uid now ops st) = true :=
  runOps_nonneg uid now ops st hadd hst

theorem C1_quantity_nonneg_witness :
    nonnegB (runOps none 0
      [Op.add "milk" 5, Op.sell "milk" 3, Op.del "milk" 2] emptyDB) = true := by
  apply C1_quantity_nonneg
  · intro n q h
    simp only [List.mem_cons, List.not_mem_nil, or_false] at h
    rcases h with h | h | h
    · injection h with h1 h2
      subst h2
      norm_num
    · exact Op.noConfusion h
    · exact Op.noConfusion h
  · decide

/-! ## Claim C2 -/

/-- C2: a sell or delete of quantity `q` on a missing `(owner, name)` key
fails with the not-found error and leaves the whole state unchanged; when
the stored quantity is strictly below the request, both fail with their
insufficient-stock error reporting the exact available amount, again
leaving the whole state (the record and all other fields) unchanged. -/
theorem C2_error_atomicity (name : String) (q : Int) (uid : Option String)
    (now : Nat) (st : DBState) :
    (products_find_one name uid st.products = none →
      sell_product name q uid now st = (.err "Product not found", st) ∧
      delete_product name q uid st = (.err "Product not found", st)) ∧
    (∀ item, products_find_one name uid st.products = some item →
      item.quantity < q →
      sell_product name q uid now st =
        (.err ("Insufficient stock. Available: " ++ toString item.quantity), st) ∧
      delete_product name q uid st =
        (.err ("Insufficient quantity. Available: " ++ toString item.quantity), st)) := by
  constructor
  · intro h
    constructor
    · simp only [sell_product, h]
    · simp only [delete_product, h]
  · intro item h hlt
    constructor
    · simp only [sell_product, h, if_pos hlt]
    · simp only [delete_product, h, if_pos hlt]

theorem C2_error_atomicity_witness :
    (sell_product "milk" 7 none 0 ⟨[⟨"milk", 5, 0, none⟩], []⟩ =
      (.err ("Insufficient stock. Available: " ++ toString (5 : Int)),
        ⟨[⟨"milk", 5, 0, none⟩], []⟩)) ∧
    (delete_product "milk" 7 none ⟨[⟨"milk", 5, 0, none⟩], []⟩ =
      (.err ("Insufficient quantity. Available: " ++ toString (5 : Int)),
        ⟨[⟨"milk", 5, 0, none⟩], []⟩)) ∧
    (sell_product "oil" 1 none 0 ⟨[⟨"milk", 5, 0, none⟩], []⟩ =
      (.err "Product not found", ⟨[⟨"milk", 5, 0, none⟩], []⟩)) := by
  have h5 := (C2_error_atomicity "milk" 7 none 0 ⟨[⟨"milk", 5, 0, none⟩], []⟩).2
    ⟨"milk", 5, 0, none⟩ (by decide) (by decide)
  have h0 := (C2_error_atomicity "oil" 1 none 0 ⟨[⟨"milk", 5, 0, none⟩], []⟩).1
    (by decide)
  exact ⟨h5.1, h5.2, h0.1⟩

/-! ## Claim C3 -/

/-- C3, as stated, is false on the code: a `sell` that brings the
quantity to exactly 0 succeeds but retains the zero-quantity record in
the ledger (only `delete_product` removes the record at zero). -/
theorem C3_counterexample :
    ((sell_product "milk" 5 none 1 ⟨[⟨"milk", 5, 0, none⟩], []⟩).1.isOk = true) ∧
    ((sell_product "milk" 5 none 1 ⟨[⟨"milk", 5, 0, none⟩], []⟩).2.products =
      [⟨"milk", 0, 0, none⟩]) := by decide

/-- C3 (amended): a successful sell appends exactly one Sale record and
keeps the product record, even when its quantity reaches exactly 0; a
delete appends no Sale record, and a delete that brings the quantity to
exactly 0 removes the record entirely, so a subsequent list for the same
owner omits it. -/
theorem C3_zero_row_lifecycle (name : String) (q : Int) (uid : Option String)
    (now : Nat) (st : DBState) (item : Product)
    (hfind : products_find_one name uid st.products = some item)
    (hq : q ≤ item.quantity)
    (huniq : st.products.countP (matchesProduct name uid) ≤ 1) :
    ((sell_product name q uid now st).2.sales = st.sales ++ [⟨name, q, now, uid⟩]) ∧
    (products_find_one name uid (sell_product name q uid now st).2.products =
      some { item with quantity := item.quantity - q }) ∧
    ((delete_product name q uid st).2.sales = st.sales) ∧
    (item.quantity = q →
      products_find_one name uid (delete_product name q uid st).2.products = none ∧
      ∀ p ∈ get_inventory uid (delete_product name q uid st).2,
        matchesProduct name uid p = false) := by
  have hnlt : ¬ item.quantity < q := not_lt.2 hq
  have hinc := products_find_one_inc hfind (-q)
  refine ⟨?_, ?_, ?_, ?_⟩
  · simp only [sell_product, hfind, if_neg hnlt]
  · simp only [sell_product, hfind, if_neg hnlt]
    rw [hinc]
    simp [Int.sub_eq_add_neg]
  · simp only [delete_product, hfind, if_neg hnlt]
  · intro hz
    have hz' : item.quantity + (-q) = 0 := by omega
    have hkey : (delete_product name q uid st).2.products =
        products_delete_one name uid (products_inc name uid (-q) st.products) := by
      simp only [delete_product, hfind, if_neg hnlt, hinc]
      rw [if_pos hz']
    have hnone : products_find_one name uid
        (products_delete_one name uid (products_inc name uid (-q) st.products)) =
        none := by
      apply products_find_one_delete_one
      rw [countP_products_inc]
      exact huniq
    constructor
    · rw [hkey]
      exact hnone
    · intro p hp
      have hmem := mem_get_inventory hp
      rw [hkey] at hmem
      have := List.find?_eq_none.1 hnone p hmem
      simpa using this

theorem C3_zero_row_lifecycle_witness :
    ((sell_product "milk" 8 none 1 ⟨[⟨"milk", 8, 0, none⟩], []⟩).2.sales =
      [] ++ [⟨"milk", 8, 1, none⟩]) ∧
    (products_find_one "milk" none
      (delete_product "milk" 8 none ⟨[⟨"milk", 8, 0, none⟩], []⟩).2.products = none) ∧
    ((delete_product "milk" 8 none ⟨[⟨"milk", 8, 0, none⟩], []⟩).2.sales = []) := by
  have h := C3_zero_row_lifecycle "milk" 8 none 1 ⟨[⟨"milk", 8, 0, none⟩], []⟩
    ⟨"milk", 8, 0, none⟩ (by decide) (by decide) (by decide)
  exact ⟨h.1, (h.2.2.2 rfl).1, h.2.2.1⟩

/-! ## Claim C10 -/

/-- C10: `add_product` performs no validation of its quantity argument:
for every integer quantity (zero and negative included) the call reports
success; a missing key gets a fresh record storing exactly that quantity,
and an existing key has its stored quantity shifted by it — the record is
kept even when the result is zero or negative. -/
theorem C10_add_no_validation (name : String) (q : Int) (uid : Option String)
    (now : Nat) (st : DBState) :
    ((add_product name q uid now st).1.isOk = true) ∧
    (products_find_one name uid st.products = none →
      products_find_one name uid (add_product name q uid now st).2.products =
        some ⟨name, q, now, uid⟩) ∧
    (∀ item, products_find_one name uid st.products = some item →
      products_find_one name uid (add_product name q uid now st).2.products =
        some { item with quantity := item.quantity + q }) := by
  refine ⟨?_, ?_, ?_⟩
  · simp only [add_product]
    cases hfind : products_find_one name uid st.products <;> simp [OpResult.isOk]
  · intro h
    simp only [add_product, h]
    exact products_find_one_append h (matchesProduct_self name uid q now)
  · intro item h
    simp only [add_product, h]
    exact products_find_one_inc h q

theorem C10_add_no_validation_witness :
    products_find_one "milk" none
      ((add_product "milk" (-5) none 0
        (add_product "milk" 5 none 0 emptyDB).2).2).products =
      some ⟨"milk", 0, 0, none⟩ := by
  have h := (C10_add_no_validation "milk" (-5) none 0
    (add_product "milk" 5 none 0 emptyDB).2).2.2 ⟨"milk", 5, 0, none⟩ (by decide)
  simpa using h

/-! ## Claim C4 -/

/-- The two-phase split is `sell_product` itself: the method is exactly
"take a `find_one` snapshot, then check-and-write against it". -/
theorem sell_product_phases (name : String) (q : Int) (uid : Option String)
    (now : Nat) (st : DBState) :
    sell_product name q uid now st =
      match sell_read name uid st with
      | none => (.err "Product not found", st)
      | some item => sell_commit name q uid now item st := rfl

/-- C4: the no-lost-update requirement fails on the code.  `sell_product`
takes its `find_one` snapshot without any lock or conditional update, so
in the interleaving read₁, read₂, write₁, write₂ of two sells of 3
against an original stock of 5, both calls observe the pre-mutation
quantity 5, both pass the stock check and succeed, and the final stored
quantity is -1. -/
theorem C4_lost_update :
    (sell_read "milk" none ⟨[⟨"milk", 5, 0, none⟩], []⟩ =
      some ⟨"milk", 5, 0, none⟩) ∧
    ((sell_commit "milk" 3 none 0 ⟨"milk", 5, 0, none⟩
      ⟨[⟨"milk", 5, 0, none⟩], []⟩).1.isOk = true) ∧
    ((sell_commit "milk" 3 none 0 ⟨"milk", 5, 0, none⟩
      (sell_commit "milk" 3 none 0 ⟨"milk", 5, 0, none⟩
        ⟨[⟨"milk", 5, 0, none⟩], []⟩).2).1.isOk = true) ∧
    ((sell_commit "milk" 3 none 0 ⟨"milk", 5, 0, none⟩
      (sell_commit "milk" 3 none 0 ⟨"milk", 5, 0, none⟩
        ⟨[⟨"milk", 5, 0, none⟩], []⟩).2).2.products =
      [⟨"milk", -1, 0, none⟩]) := by decide

/-! ## Claim C6 -/

/-- Whenever `finishCmd` returns a command dictionary, the quantity
passed the positivity guard and the action is the branch's verb. -/
theorem finishCmd_cmd {action : String} {ds rest : List Char} {a : String}
    {q : Nat} {p : String} (h : finishCmd action ds rest = .cmd a q p) :
    0 < q ∧ a = action := by
  simp only [finishCmd] at h
  split at h
  · exact ParseResult.noConfusion h
  · injection h with h1 h2 h3
    subst h1
    subst h2
    exact ⟨by omega, rfl⟩

/-- C6: the parser lower-cases and trims its input, tries the anchored
patterns in the fixed order add, sell (verb "sold"), delete, and returns
the first match as a command with a positive quantity and the trimmed
remainder as the product; the five cited example inputs behave exactly
as claimed, and every returned command has a positive quantity and one
of the three verbs. -/
theorem C6_parser_grammar :
    (parse_inventory_command "add 10 packets of milk" =
      .cmd "add" 10 "packets of milk") ∧
    (parse_inventory_command "sold 5 soaps" = .cmd "sell" 5 "soaps") ∧
    (parse_inventory_command "buy 3 eggs" =
      .perr "Invalid command format. Use: 'Add X [product]', 'Sold X [product]', or 'Delete X [product]'") ∧
    (parse_inventory_command "add 0 milk" =
      .perr "Quantity must be greater than 0") ∧
    (parse_inventory_command "add -1 milk" =
      .perr "Invalid command format. Use: 'Add X [product]', 'Sold X [product]', or 'Delete X [product]'") ∧
    (parse_inventory_command "  ADD 10 Packets of Milk  " =
      .cmd "add" 10 "packets of milk") ∧
    (∀ s a q p, parse_inventory_command s = .cmd a q p →
      0 < q ∧ (a = "add" ∨ a = "sell" ∨ a = "delete")) := by
  refine ⟨by decide, by decide, by decide, by decide, by decide, by decide, ?_⟩
  intro s a q p h
  simp only [parse_inventory_command] at h
  repeat' split at h
  all_goals first
    | exact ParseResult.noConfusion h
    | (rcases finishCmd_cmd h with ⟨h1, h2⟩
       exact ⟨h1, by simp [h2]⟩)

theorem C6_parser_grammar_witness :
    0 < 10 ∧ (("add" : String) = "add" ∨ ("add" : String) = "sell" ∨
      ("add" : String) = "delete") :=
  C6_parser_grammar.2.2.2.2.2.2 "add 10 packets of milk" "add" 10
    "packets of milk" (by decide)

/-! ## Claim C7 -/

/-- C7: the normalizer does equate the case/plural variants of "apple",
but its suffix loop tries the bare `s` ending first, so
`normalize("Knives")` is `"knive"`, not the claimed `"knife"` — the
`ies→y` and `ves→f` branches of the source are unreachable. -/
theorem C7_normalizer_plural_order :
    (normalize_product_name "Knives" = "knive") ∧
    (normalize_product_name "Knives" ≠ "knife") ∧
    (normalize_product_name "Apples" = normalize_product_name "apple") ∧
    (normalize_product_name "apple" = normalize_product_name "APPLE") := by
  decide

/-! ## Claim C5 -/

/-- C5: the quantity-merge half of the claim holds — two adds on one key
yield one stored record with the summed quantity, and a fresh record
stores `created_at` from the clock — but `add_product` accepts no
financial fields at all, so the bulk importer's calls passing
`cost_price=…` raise `TypeError` at keyword binding instead of
succeeding. -/
theorem C5_add_merge_no_financials :
    ((add_product "milk" 3 none 1 (add_product "milk" 5 none 0 emptyDB).2).2.products =
      [⟨"milk", 8, 0, none⟩]) ∧
    ((add_product "milk" 5 none 7 emptyDB).2.products = [⟨"milk", 5, 7, none⟩]) ∧
    (call_add_product_with_financials = .typeErrorUnexpectedKwarg "cost_price") := by
  decide

/-! ## Claim C8 -/

/-- C8: on a 3-row batch whose rows all carry the four required fields
and whose row 2 alone is invalid (`selling_price ≤ cost_price`), the
importer does not return `imported=2` with one per-row error: the first
valid row's `add_product` call raises `TypeError`, the row handler's own
`NameError` (`row` is unbound) escapes the loop, and the whole call
returns the function-level failure — nothing is imported.  Only a batch
in which no row survives validation completes the loop; it then reports
`success` with per-row errors labelled `index + 2` (the first data row
is "Row 2"). -/
theorem C8_batch_abort :
    (process_excel_rows []
      [⟨"rice", 10, 20, 30, none, none⟩, ⟨"soap", 5, 50, 40, none, none⟩,
        ⟨"oil", 3, 10, 15, none, none⟩] =
      .failure "Error processing Excel file: name 'row' is not defined") ∧
    (process_excel_rows [] [⟨"rice", 0, 20, 30, none, none⟩] =
      .report "Encountered 1 errors" 0 0 0 ["Row 2: Invalid name or quantity"]) := by
  decide

/-! ## Claim C9 -/

/-- C9: the in-memory `find_one` treats `"$or"` as a literal document
key, so the duplicate lookup of `create_user` never matches any
document: a second `create_user` with the same username and email
succeeds and persists a second User record (here with hash function
`id`, exhibiting `password_hash = password ++ salt`, `role = "user"`,
`is_active = true`); the email-shape rejection does hold. -/
theorem C9_inmemory_duplicate_bug :
    (∀ cs us, users_find_one [("$or", QVal.orClauses cs)] us = none) ∧
    ((create_user (fun s => s) "s1" 0 "alice" "alice@example.com" "pw" none
        ⟨[], 0⟩).1 = .created 1 "alice" "alice@example.com") ∧
    ((create_user (fun s => s) "s2" 1 "alice" "alice@example.com" "pw" none
        (create_user (fun s => s) "s1" 0 "alice" "alice@example.com" "pw" none
          ⟨[], 0⟩).2).1 = .created 2 "alice" "alice@example.com") ∧
    ((create_user (fun s => s) "s2" 1 "alice" "alice@example.com" "pw" none
        (create_user (fun s => s) "s1" 0 "alice" "alice@example.com" "pw" none
          ⟨[], 0⟩).2).2.users.countP (fun u => u.username = "alice") = 2) ∧
    (create_user (fun s => s) "s1" 0 "bob" "not-an-email" "pw" none ⟨[], 0⟩ =
      (.uerr "Invalid email format", ⟨[], 0⟩)) ∧
    ((create_user (fun s => s) "s1" 0 "alice" "alice@example.com" "pw" none
        ⟨[], 0⟩).2.users =
      [⟨1, "alice", "alice@example.com", "pws1", "s1", "alice", 0, true, "user"⟩]) := by
  refine ⟨?_, by decide, by decide, by decide, by decide, by decide⟩
  intro cs us
  induction us with
  | nil => rfl
  | cons u us ih =>
    have hu : (fun v : UserDoc =>
        [("$or", QVal.orClauses cs)].all (fun kv => v.get kv.1 = some kv.2)) u =
        false := rfl
    unfold users_find_one at ih ⊢
    rw [List.find?_cons_of_neg _ (by simp [hu])]
    exact ih

end VoiceTory
